import Mathlib

/-!
Shallow embedding of the github-backup tool (src/main.go) and verification of
its specification claims.

The program is a one-shot orchestration script: it parses flags, enumerates
repositories (owned via a `gh repo list` subprocess, starred via a GitHub REST
call), filters them against an allow-list, and mirror-clones each included
repository (plus its wiki) with `git clone --mirror`.

External effects (subprocess invocations, HTTP, printing, logging, process
termination via `log.Fatal`) are embedded explicitly: an `Oracle` supplies the
outcome of every external call, and each function returns the list of `Event`s
it performed together with the updated global counter and an optional fatal
error.  `log.Fatal` — which in Go logs and exits the process with a non-zero
status — is modelled by an `Event.fatal` entry and a `some` fatal-error field
that every caller propagates without doing further work, mirroring immediate
process termination.
-/

namespace GithubBackup

/-- Whitespace predicate of Go `unicode.IsSpace` (the set used by
`strings.TrimSpace`): ASCII space characters plus the Unicode
White_Space code points. -/
def goIsSpace (c : Char) : Bool :=
  c == ' ' || c == '\t' || c == '\n' || c == '\x0b' || c == '\x0c' || c == '\r' ||
  c == '\u0085' || c == '\u00a0' || c == '\u1680' ||
  ('\u2000' ≤ c && c ≤ '\u200a') || c == '\u2028' || c == '\u2029' ||
  c == '\u202f' || c == '\u205f' || c == '\u3000'

/-- Go `strings.TrimSpace`: drop leading and trailing whitespace. -/
def trimSpace (s : String) : String :=
  String.mk (((s.toList.dropWhile goIsSpace).reverse.dropWhile goIsSpace).reverse)

/-- Auxiliary loop of `splitGo`: `acc` holds the current field reversed. -/
def splitGoAux (sep : Char) : List Char → List Char → List String
  | [], acc => [String.mk acc.reverse]
  | c :: cs, acc =>
    if c = sep then String.mk acc.reverse :: splitGoAux sep cs []
    else splitGoAux sep cs (c :: acc)

/-- Go `strings.Split(s, sep)` for a single-character separator (the only
form the program uses: `"\n"`, `"\t"`, `","`).  `splitGo sep "" = [""]`,
and a trailing separator yields a trailing empty field, as in Go. -/
def splitGo (sep : Char) (s : String) : List String :=
  splitGoAux sep s.toList []

/-- `inSlise` from src/main.go lines 164-171: returns true iff some entry of
`ar`, after `strings.TrimSpace`, equals `el`.  (`el` itself is not trimmed.) -/
def inSlise (el : String) : List String → Bool
  | [] => false
  | a :: ar => if trimSpace a = el then true else inSlise el ar

/-- The inclusion guard of `cloneRepos` (src/main.go line 139):
`len(limit) == 0 || inSlise(repo, limit)`. -/
def included (repo : String) (limit : List String) : Bool :=
  limit.length == 0 || inSlise repo limit

/-- A JSON value, as produced by lexing an HTTP response body.  The raw
byte-level lexer of `encoding/json` is Go library code, so the body is
modelled at this structured level; a lexically invalid body is a separate
`StarResp.badJson` oracle outcome. -/
inductive Json where
  | null : Json
  | boolean : Bool → Json
  | num : Int → Json
  | str : String → Json
  | arr : List Json → Json
  | obj : List (String × Json) → Json

/-- The value of key `k` in a JSON object, as `encoding/json` assigns it to a
struct field: each key is processed in order, so for duplicate keys the last
occurrence wins. -/
def lastField (k : String) : List (String × Json) → Option Json
  | [] => none
  | (k1, v) :: fs => match lastField k fs with
    | some v1 => some v1
    | none => if k1 = k then some v else none

/-- `encoding/json` unmarshalling of one array element into
`struct { FullName string }` with tag `json:"full_name,omitempty"`
(src/main.go lines 115-117; `omitempty` affects only marshalling):
a missing `full_name` key, or an explicit `null` value or element, leaves the
field at its zero value `""`; a non-string value, or a non-object element, is
an unmarshal error. -/
def unmarshalStarsElem : Json → Except String String
  | Json.null => Except.ok ""
  | Json.obj fs => match lastField "full_name" fs with
    | some (Json.str s) => Except.ok s
    | some Json.null => Except.ok ""
    | some _ => Except.error "cannot unmarshal value into field FullName of type string"
    | none => Except.ok ""
  | _ => Except.error "cannot unmarshal value into element of type starsData"

/-- `json.Unmarshal(body, &jsonData)` for `jsonData []starsData`
(src/main.go line 119): the body must be a JSON array (or `null`, which
leaves the nil slice); each element unmarshals per `unmarshalStarsElem`. -/
def unmarshalStars : Json → Except String (List String)
  | Json.null => Except.ok []
  | Json.arr xs => xs.mapM unmarshalStarsElem
  | _ => Except.error "cannot unmarshal value into slice of type starsData"

/-- One observable external action of the program, in execution order. -/
inductive Event where
  | ghList : String → String → Event
  | httpGet : String → String → Event
  | logMsg : String → Event
  | progress : Nat → String → Event
  | mainClone : String → Event
  | wikiClone : String → Bool → Event
  | fatal : String → Event
deriving DecidableEq

/-- Outcome of the starred-repositories HTTP request for one account:
`http.Get` error, `ioutil.ReadAll` error, a body that is not valid JSON,
or a successfully lexed JSON body (src/main.go lines 101-121). -/
inductive StarResp where
  | httpErr : String → StarResp
  | readErr : String → StarResp
  | badJson : String → StarResp
  | body : Json → StarResp

/-- Outcomes of all external calls the program may perform.  `ghOutput` is the
stdout (or error) of `gh repo list <user> -L <maxrepo>`; `mainCloneErr` is
`none` on success of `git clone --mirror` of the main repository, `some msg`
on failure; `wikiCloneOk` is the success of the wiki clone. -/
structure Oracle where
  ghOutput : String → Except String String
  starred : String → StarResp
  mainCloneErr : String → Option String
  wikiCloneOk : String → Bool

/-- Result of `cloneRepos`: the (never-assigned) named return `cloned`, the
final value of the local `repos` variable, the events performed, the global
`reponum` counter after the call, and `some msg` when `log.Fatal` fired. -/
structure CloneResult where
  cloned : List String
  reposVar : List String
  events : List Event
  reponum : Nat
  fatalErr : Option String
deriving DecidableEq

/-- The loop of `cloneRepos` (src/main.go lines 137-159).  Per the Go
specification the range expression is evaluated once before the loop begins,
so the iteration sequence `iter` is the value of `repos` at loop entry and the
`repos = append(repos, repo)` at line 146 only grows the local variable
(threaded here as `reposVar`) without affecting iteration.  A main-clone
failure is `log.Fatal` (src/main.go line 151): the process dies at once, so
no further events occur and `fatalErr` is set.  The wiki-clone error is
discarded (src/main.go lines 155-158), so only the attempt and its outcome
are recorded. -/
def cloneReposGo (o : Oracle) (limit : List String) (dir : String) :
    List String → List String → Nat → CloneResult
  | [], reposVar, n => ⟨[], reposVar, [], n, none⟩
  | repo :: iter, reposVar, n =>
    if !(included repo limit) then
      cloneReposGo o limit dir iter reposVar n
    else
      let reposVar1 := reposVar ++ [repo]
      match o.mainCloneErr repo with
      | some e =>
        ⟨[], reposVar1,
         [Event.progress (n + 1) repo, Event.mainClone repo, Event.fatal e],
         n + 1, some e⟩
      | none =>
        let r := cloneReposGo o limit dir iter reposVar1 (n + 1)
        ⟨r.cloned, r.reposVar,
         Event.progress (n + 1) repo :: Event.mainClone repo ::
           Event.wikiClone repo (o.wikiCloneOk repo) :: r.events,
         r.reponum, r.fatalErr⟩

/-- `cloneRepos(repos, limit, dir)` (src/main.go lines 136-161) started with
global counter `n`.  Iteration is over the entry value of `repos`, which is
also the initial value of the local variable. -/
def cloneRepos (o : Oracle) (repos limit : List String) (dir : String) (n : Nat) :
    CloneResult :=
  cloneReposGo o limit dir repos repos n

/-- Result of a discovery function (`getRepos` or `getStars`): the returned
`repos` list, the events performed, the updated global counter, and `some msg`
when the process died in `log.Fatal`. -/
structure DiscResult where
  repos : List String
  events : List Event
  reponum : Nat
  fatalErr : Option String
deriving DecidableEq

/-- The output-parsing loop of `getRepos` (src/main.go lines 79-89): split the
tool output on newlines, skip empty lines (`continue`), and keep the first
tab-delimited field of each remaining line.  `splitGo` never returns an empty
list, so `headD ""` is exactly `words[0]`. -/
def parseGhOutput (out : String) : List String :=
  (splitGo '\n' out).filterMap fun line =>
    if line = "" then none else some ((splitGo '\t' line).headD "")

/-- `getRepos(dir, user, maxrepo, limit)` (src/main.go lines 70-95), started
with global counter `n`: run `gh repo list user -L maxrepo`; on invocation
error, `log.Fatal` kills the process (no repositories are cloned); otherwise
parse the output and hand the list to `cloneRepos`. -/
def getRepos (o : Oracle) (dir user maxrepo : String) (limit : List String)
    (n : Nat) : DiscResult :=
  match o.ghOutput user with
  | Except.error e => ⟨[], [Event.ghList user maxrepo, Event.fatal e], n, some e⟩
  | Except.ok out =>
    let repos := parseGhOutput out
    let c := cloneRepos o repos limit dir n
    ⟨repos, Event.ghList user maxrepo :: c.events, c.reponum, c.fatalErr⟩

/-- The log line of the error branches of `getStars` (src/main.go lines
104, 110, 120).  The Go format strings are
`"Can%27t get starred repos of %s: %s"` (user, err),
`"Can%27t read response body: %s"` (err) and
`"Can%27t parse response body to json: %s\n%s"` (err, body); each message
carries the account name or the underlying error text. -/
def starErrMsg (user : String) : StarResp → String
  | StarResp.httpErr e => "cannot get starred repos of " ++ user ++ ": " ++ e
  | StarResp.readErr e => "cannot read response body: " ++ e
  | StarResp.badJson raw => "cannot parse response body to json: " ++ raw
  | StarResp.body j =>
    match unmarshalStars j with
    | Except.error e => "cannot parse response body to json: " ++ e
    | Except.ok _ => ""

/-- `getStars(dir, user, maxrepo, limit)` (src/main.go lines 98-133), started
with global counter `n`: GET the starred listing; on HTTP error, body-read
error or JSON unmarshal error, log and return `nil` without cloning anything
(the process continues); otherwise collect `jsonData[i].FullName` for every
element — including the zero value `""` for elements without a `full_name`
key — and hand the list to `cloneRepos`. -/
def getStars (o : Oracle) (dir user maxrepo : String) (limit : List String)
    (n : Nat) : DiscResult :=
  let ev0 := Event.httpGet user maxrepo
  match o.starred user with
  | StarResp.httpErr e =>
    ⟨[], [ev0, Event.logMsg (starErrMsg user (StarResp.httpErr e))], n, none⟩
  | StarResp.readErr e =>
    ⟨[], [ev0, Event.logMsg (starErrMsg user (StarResp.readErr e))], n, none⟩
  | StarResp.badJson raw =>
    ⟨[], [ev0, Event.logMsg (starErrMsg user (StarResp.badJson raw))], n, none⟩
  | StarResp.body j =>
    match unmarshalStars j with
    | Except.error _ =>
      ⟨[], [ev0, Event.logMsg (starErrMsg user (StarResp.body j))], n, none⟩
    | Except.ok fullNames =>
      let c := cloneRepos o fullNames limit dir n
      ⟨fullNames, ev0 :: c.events, c.reponum, c.fatalErr⟩

/-- The command-line flags of the program (src/main.go lines 40-45). -/
structure Flags where
  userslist : String
  limitslist : String
  output : String
  stars : Bool
  starsonly : Bool
  maxrepo : String

/-- `users := strings.Split(userslist, ",")` (src/main.go line 49). -/
def parseUsers (userslist : String) : List String :=
  splitGo ',' userslist

/-- The limit parse of src/main.go lines 50-53: split on commas only when the
trimmed flag value is non-empty, else keep the nil slice. -/
def parseLimit (limitslist : String) : List String :=
  if trimSpace limitslist ≠ "" then splitGo ',' limitslist else []

/-- State of a (partial) run: events performed, global counter, and `some msg`
when the process died in `log.Fatal` (a non-zero exit). -/
structure RunState where
  events : List Event
  reponum : Nat
  fatalErr : Option String
deriving DecidableEq

/-- The body of the account loop (src/main.go lines 56-63) for one account:
call `getRepos` unless `starsonly`, then call `getStars` when
`stars || starsonly`; the account name is trimmed at each call site.
A fatal error in `getRepos` prevents the `getStars` call, since the process
has already exited. -/
def userStep (o : Oracle) (f : Flags) (limit : List String) (user : String)
    (n : Nat) : RunState :=
  let u := trimSpace user
  let g : RunState :=
    if !f.starsonly then
      let g1 := getRepos o f.output u f.maxrepo limit n
      ⟨g1.events, g1.reponum, g1.fatalErr⟩
    else ⟨[], n, none⟩
  match g.fatalErr with
  | some e => ⟨g.events, g.reponum, some e⟩
  | none =>
    if f.stars || f.starsonly then
      let s := getStars o f.output u f.maxrepo limit g.reponum
      ⟨g.events ++ s.events, s.reponum, s.fatalErr⟩
    else g

/-- The account loop of `main` (src/main.go lines 56-63): process accounts in
order; a fatal error (process exit) stops all further accounts. -/
def mainLoop (o : Oracle) (f : Flags) (limit : List String) :
    List String → Nat → RunState
  | [], n => ⟨[], n, none⟩
  | user :: rest, n =>
    let s := userStep o f limit user n
    match s.fatalErr with
    | some e => ⟨s.events, s.reponum, some e⟩
    | none =>
      let r := mainLoop o f limit rest s.reponum
      ⟨s.events ++ r.events, r.reponum, r.fatalErr⟩

/-- `main` (src/main.go lines 35-64): parse the account list and the limit
list, then run the account loop with the global counter starting at 0. -/
def mainRun (o : Oracle) (f : Flags) : RunState :=
  mainLoop o f (parseLimit f.limitslist) (parseUsers f.userslist) 0

/-- The counter values of the progress lines in an event list, in print
order. -/
def progressNums (evs : List Event) : List Nat :=
  evs.filterMap fun e => match e with
    | Event.progress k _ => some k
    | _ => none

/-- The repositories of the main-clone invocations in an event list, in
invocation order. -/
def mainClones (evs : List Event) : List String :=
  evs.filterMap fun e => match e with
    | Event.mainClone r => some r
    | _ => none

/-- Erase the success bit of wiki-clone events, keeping the attempt itself:
two traces equal up to `scrubWiki` differ at most in wiki-clone outcomes. -/
def scrubWiki (e : Event) : Event :=
  match e with
  | Event.wikiClone r _ => Event.wikiClone r false
  | e1 => e1

/-- Whether an event is an owned-discovery invocation (`gh repo list`). -/
def isGhList : Event → Bool
  | Event.ghList _ _ => true
  | _ => false

/-- Whether an event is a starred-discovery HTTP request. -/
def isHttpGet : Event → Bool
  | Event.httpGet _ _ => true
  | _ => false

/-- Whether an `Except` value is a success. -/
def exceptOk {ε α : Type} : Except ε α → Bool
  | Except.ok _ => true
  | Except.error _ => false

/-- Whether a starred-discovery response makes `getStars` take one of its
three error exits: HTTP error, body-read error, or JSON parse/unmarshal
error. -/
def starRespFails : StarResp → Bool
  | StarResp.body j => !(exceptOk (unmarshalStars j))
  | _ => true

/-- The starred-discovery JSON body
`[{"full_name":"x/y"},{"other":"z"},{"full_name":"p/q"}]` used by the
specification's parsing test. -/
def starsBodyT : Json :=
  Json.arr [Json.obj [("full_name", Json.str "x/y")],
            Json.obj [("other", Json.str "z")],
            Json.obj [("full_name", Json.str "p/q")]]

/-- Test oracle: `gh` returns an empty listing, the starred endpoint returns
`starsBodyT`, and every clone succeeds. -/
def oracleStarsT : Oracle :=
  ⟨fun _ => Except.ok "", fun _ => StarResp.body starsBodyT,
   fun _ => none, fun _ => true⟩

/-- Test oracle: every external call succeeds; `gh` lists `a/b` and `c/d`,
the starred endpoint errors. -/
def oracleOkT : Oracle :=
  ⟨fun _ => Except.ok "a/b\tpublic\nc/d\tprivate\n",
   fun _ => StarResp.httpErr "dial tcp: connection refused",
   fun _ => none, fun _ => true⟩

/-- Test oracle: the `gh` listing invocation and every main clone fail, and
the starred endpoint reports a body-read error. -/
def oracleFailT : Oracle :=
  ⟨fun _ => Except.error "gh: not logged in",
   fun _ => StarResp.readErr "unexpected EOF",
   fun _ => some "git: repository not found", fun _ => true⟩

/-- Test flags: two accounts, no limit, owned and starred discovery. -/
def flagsBothT : Flags :=
  ⟨"alice, bob", "", "repos", true, false, "1000"⟩

/-- Test flags: one account, starred-only mode. -/
def flagsStarsOnlyT : Flags :=
  ⟨"alice", "", "repos", false, true, "1000"⟩

/-!
## General lemmas about the embedded program
-/

theorem inSlise_iff (el : String) (ar : List String) :
    inSlise el ar = true ↔ ∃ e ∈ ar, trimSpace e = el := by
  induction ar with
  | nil => simp [inSlise]
  | cons a ar ih =>
    by_cases h : trimSpace a = el
    · simp [inSlise, h]
    · simp [inSlise, h, ih]

theorem cloneReposGo_nil (o : Oracle) (limit : List String) (dir : String)
    (v : List String) (n : Nat) :
    cloneReposGo o limit dir [] v n = ⟨[], v, [], n, none⟩ := rfl

theorem cloneReposGo_skip (o : Oracle) (limit : List String) (dir : String)
    (repo : String) (iter v : List String) (n : Nat)
    (h : included repo limit = false) :
    cloneReposGo o limit dir (repo :: iter) v n =
      cloneReposGo o limit dir iter v n := by
  simp [cloneReposGo, h]

theorem cloneReposGo_fatal (o : Oracle) (limit : List String) (dir : String)
    (repo e : String) (iter v : List String) (n : Nat)
    (h : included repo limit = true) (he : o.mainCloneErr repo = some e) :
    cloneReposGo o limit dir (repo :: iter) v n =
      ⟨[], v ++ [repo],
       [Event.progress (n + 1) repo, Event.mainClone repo, Event.fatal e],
       n + 1, some e⟩ := by
  simp [cloneReposGo, h, he]

theorem cloneReposGo_ok (o : Oracle) (limit : List String) (dir : String)
    (repo : String) (iter v : List String) (n : Nat)
    (h : included repo limit = true) (he : o.mainCloneErr repo = none) :
    cloneReposGo o limit dir (repo :: iter) v n =
      ⟨(cloneReposGo o limit dir iter (v ++ [repo]) (n + 1)).cloned,
       (cloneReposGo o limit dir iter (v ++ [repo]) (n + 1)).reposVar,
       Event.progress (n + 1) repo :: Event.mainClone repo ::
         Event.wikiClone repo (o.wikiCloneOk repo) ::
         (cloneReposGo o limit dir iter (v ++ [repo]) (n + 1)).events,
       (cloneReposGo o limit dir iter (v ++ [repo]) (n + 1)).reponum,
       (cloneReposGo o limit dir iter (v ++ [repo]) (n + 1)).fatalErr⟩ := by
  simp [cloneReposGo, h, he]

theorem cloneReposGo_mainClones (o : Oracle) (limit : List String) (dir : String)
    (hok : ∀ r, o.mainCloneErr r = none) (iter v : List String) (n : Nat) :
    mainClones (cloneReposGo o limit dir iter v n).events =
      iter.filter (fun r => included r limit) ∧
    (cloneReposGo o limit dir iter v n).reposVar =
      v ++ iter.filter (fun r => included r limit) ∧
    (cloneReposGo o limit dir iter v n).fatalErr = none := by
  induction iter generalizing v n with
  | nil => simp [cloneReposGo_nil, mainClones]
  | cons repo iter ih =>
    cases h : included repo limit with
    | false =>
      rw [cloneReposGo_skip o limit dir repo iter v n h]
      obtain ⟨h1, h2, h3⟩ := ih v n
      simp [h, h1, h2, h3]
    | true =>
      rw [cloneReposGo_ok o limit dir repo iter v n h (hok repo)]
      obtain ⟨h1, h2, h3⟩ := ih (v ++ [repo]) (n + 1)
      simp [mainClones, h, List.filterMap_cons] at h1 ⊢
      refine ⟨h1, ?_, h3⟩
      rw [h2]
      simp

theorem progressNums_append (a b : List Event) :
    progressNums (a ++ b) = progressNums a ++ progressNums b := by
  simp [progressNums, List.filterMap_append]

theorem cloneReposGo_progress (o : Oracle) (limit : List String) (dir : String)
    (iter v : List String) (n : Nat) :
    ∃ k, progressNums (cloneReposGo o limit dir iter v n).events =
        List.range' (n + 1) k ∧
      (cloneReposGo o limit dir iter v n).reponum = n + k := by
  induction iter generalizing v n with
  | nil => exact ⟨0, by simp [cloneReposGo_nil, progressNums]⟩
  | cons repo iter ih =>
    cases h : included repo limit with
    | false => rw [cloneReposGo_skip o limit dir repo iter v n h]; exact ih v n
    | true =>
      cases he : o.mainCloneErr repo with
      | some e =>
        refine ⟨1, ?_, ?_⟩ <;>
          simp [cloneReposGo_fatal o limit dir repo e iter v n h he,
                progressNums, List.range'_succ]
      | none =>
        obtain ⟨k, h1, h2⟩ := ih (v ++ [repo]) (n + 1)
        refine ⟨k + 1, ?_, ?_⟩
        · rw [cloneReposGo_ok o limit dir repo iter v n h he]
          simp [progressNums, List.filterMap_cons] at h1 ⊢
          rw [List.range'_succ]
          simpa using h1
        · rw [cloneReposGo_ok o limit dir repo iter v n h he]
          simp only []
          omega
      

theorem getRepos_progress (o : Oracle) (dir user mx : String)
    (limit : List String) (n : Nat) :
    ∃ k, progressNums (getRepos o dir user mx limit n).events =
        List.range' (n + 1) k ∧
      (getRepos o dir user mx limit n).reponum = n + k := by
  cases hg : o.ghOutput user with
  | error e => exact ⟨0, by simp [getRepos, hg, progressNums]⟩
  | ok out =>
    obtain ⟨k, h1, h2⟩ := cloneReposGo_progress o limit dir (parseGhOutput out)
      (parseGhOutput out) n
    refine ⟨k, ?_, ?_⟩
    · simp [getRepos, hg, cloneRepos, progressNums, List.filterMap_cons] at h1 ⊢
      exact h1
    · simp [getRepos, hg, cloneRepos]
      exact h2

theorem getStars_progress (o : Oracle) (dir user mx : String)
    (limit : List String) (n : Nat) :
    ∃ k, progressNums (getStars o dir user mx limit n).events =
        List.range' (n + 1) k ∧
      (getStars o dir user mx limit n).reponum = n + k := by
  cases hs : o.starred user with
  | httpErr e => exact ⟨0, by simp [getStars, hs, progressNums]⟩
  | readErr e => exact ⟨0, by simp [getStars, hs, progressNums]⟩
  | badJson raw => exact ⟨0, by simp [getStars, hs, progressNums]⟩
  | body j =>
    cases hj : unmarshalStars j with
    | error e => exact ⟨0, by simp [getStars, hs, hj, progressNums]⟩
    | ok fullNames =>
      obtain ⟨k, h1, h2⟩ := cloneReposGo_progress o limit dir fullNames fullNames n
      refine ⟨k, ?_, ?_⟩
      · simp [getStars, hs, hj, cloneRepos, progressNums, List.filterMap_cons] at h1 ⊢
        exact h1
      · simp [getStars, hs, hj, cloneRepos]
        exact h2

theorem progress_comp (a b : List Event) (n n1 n2 : Nat)
    (ha : ∃ k, progressNums a = List.range' (n + 1) k ∧ n1 = n + k)
    (hb : ∃ k, progressNums b = List.range' (n1 + 1) k ∧ n2 = n1 + k) :
    ∃ k, progressNums (a ++ b) = List.range' (n + 1) k ∧ n2 = n + k := by
  obtain ⟨k1, ha1, ha2⟩ := ha
  obtain ⟨k2, hb1, hb2⟩ := hb
  refine ⟨k2 + k1, ?_, by omega⟩
  rw [progressNums_append, ha1, hb1]
  have := List.range'_append (n + 1) k1 k2 1
  simp only [Nat.one_mul] at this
  rw [show n + 1 + k1 = n1 + 1 by omega] at this
  exact this

theorem userStep_progress (o : Oracle) (f : Flags) (limit : List String)
    (user : String) (n : Nat) :
    ∃ k, progressNums (userStep o f limit user n).events =
        List.range' (n + 1) k ∧
      (userStep o f limit user n).reponum = n + k := by
  cases hso : f.starsonly with
  | true =>
    obtain ⟨k, h1, h2⟩ := getStars_progress o f.output (trimSpace user) f.maxrepo limit n
    refine ⟨k, ?_, ?_⟩ <;> simp [userStep, hso, h1, h2]
  | false =>
    obtain ⟨k1, g1, g2⟩ := getRepos_progress o f.output (trimSpace user) f.maxrepo limit n
    cases hf : (getRepos o f.output (trimSpace user) f.maxrepo limit n).fatalErr with
    | some e =>
      refine ⟨k1, ?_, ?_⟩ <;> simp [userStep, hso, hf, g1, g2]
    | none =>
      cases hst : f.stars with
      | false =>
        refine ⟨k1, ?_, ?_⟩ <;> simp [userStep, hso, hst, hf, g1, g2]
      | true =>
        obtain ⟨k2, s1, s2⟩ := getStars_progress o f.output (trimSpace user) f.maxrepo limit
          ((getRepos o f.output (trimSpace user) f.maxrepo limit n).reponum)
        have hc := progress_comp _ _ n _ _ ⟨k1, g1, g2⟩ ⟨k2, s1, s2⟩
        obtain ⟨k, hc1, hc2⟩ := hc
        refine ⟨k, ?_, ?_⟩
        · simp only [userStep, hso, hst, hf, Bool.not_false, if_pos, Bool.true_or]
          exact hc1
        · simp only [userStep, hso, hst, hf, Bool.not_false, if_pos, Bool.true_or]
          exact hc2

theorem mainLoop_progress (o : Oracle) (f : Flags) (limit : List String)
    (users : List String) (n : Nat) :
    ∃ k, progressNums (mainLoop o f limit users n).events =
        List.range' (n + 1) k ∧
      (mainLoop o f limit users n).reponum = n + k := by
  induction users generalizing n with
  | nil => exact ⟨0, by simp [mainLoop, progressNums]⟩
  | cons user rest ih =>
    obtain ⟨k1, u1, u2⟩ := userStep_progress o f limit user n
    cases hf : (userStep o f limit user n).fatalErr with
    | some e =>
      refine ⟨k1, ?_, ?_⟩ <;> simp [mainLoop, hf, u1, u2]
    | none =>
      obtain ⟨k, hc1, hc2⟩ := progress_comp _ _ n _ _ ⟨k1, u1, u2⟩
        (ih ((userStep o f limit user n).reponum))
      refine ⟨k, ?_, ?_⟩ <;> simp only [mainLoop, hf]
      · exact hc1
      · exact hc2

theorem cloneReposGo_wiki_indep (o1 o2 : Oracle)
    (hm : o1.mainCloneErr = o2.mainCloneErr)
    (limit : List String) (dir : String) (iter v : List String) (n : Nat) :
    (cloneReposGo o1 limit dir iter v n).cloned =
      (cloneReposGo o2 limit dir iter v n).cloned ∧
    (cloneReposGo o1 limit dir iter v n).reposVar =
      (cloneReposGo o2 limit dir iter v n).reposVar ∧
    (cloneReposGo o1 limit dir iter v n).reponum =
      (cloneReposGo o2 limit dir iter v n).reponum ∧
    (cloneReposGo o1 limit dir iter v n).fatalErr =
      (cloneReposGo o2 limit dir iter v n).fatalErr ∧
    (cloneReposGo o1 limit dir iter v n).events.map scrubWiki =
      (cloneReposGo o2 limit dir iter v n).events.map scrubWiki := by
  induction iter generalizing v n with
  | nil => simp [cloneReposGo_nil]
  | cons repo iter ih =>
    cases h : included repo limit with
    | false =>
      rw [cloneReposGo_skip o1 limit dir repo iter v n h,
          cloneReposGo_skip o2 limit dir repo iter v n h]
      exact ih v n
    | true =>
      cases he : o1.mainCloneErr repo with
      | some e =>
        rw [cloneReposGo_fatal o1 limit dir repo e iter v n h he,
            cloneReposGo_fatal o2 limit dir repo e iter v n h (by rw [← hm]; exact he)]
        simp [scrubWiki]
      | none =>
        rw [cloneReposGo_ok o1 limit dir repo iter v n h he,
            cloneReposGo_ok o2 limit dir repo iter v n h (by rw [← hm]; exact he)]
        obtain ⟨i1, i2, i3, i4, i5⟩ := ih (v ++ [repo]) (n + 1)
        simp only [List.map_cons, scrubWiki]
        exact ⟨i1, i2, i3, i4, by rw [i5]⟩

theorem getRepos_wiki_indep (o1 o2 : Oracle) (hg : o1.ghOutput = o2.ghOutput)
    (hm : o1.mainCloneErr = o2.mainCloneErr) (dir user mx : String)
    (limit : List String) (n : Nat) :
    (getRepos o1 dir user mx limit n).repos = (getRepos o2 dir user mx limit n).repos ∧
    (getRepos o1 dir user mx limit n).reponum = (getRepos o2 dir user mx limit n).reponum ∧
    (getRepos o1 dir user mx limit n).fatalErr = (getRepos o2 dir user mx limit n).fatalErr ∧
    (getRepos o1 dir user mx limit n).events.map scrubWiki =
      (getRepos o2 dir user mx limit n).events.map scrubWiki := by
  cases hgo : o1.ghOutput user with
  | error e => simp [getRepos, hgo, hg ▸ hgo, scrubWiki]
  | ok out =>
    obtain ⟨_, _, i3, i4, i5⟩ := cloneReposGo_wiki_indep o1 o2 hm limit dir
      (parseGhOutput out) (parseGhOutput out) n
    simp only [getRepos, hgo, hg ▸ hgo, cloneRepos, List.map_cons, scrubWiki]
    exact ⟨trivial, i3, i4, by rw [i5]⟩

theorem getStars_wiki_indep (o1 o2 : Oracle) (hs : o1.starred = o2.starred)
    (hm : o1.mainCloneErr = o2.mainCloneErr) (dir user mx : String)
    (limit : List String) (n : Nat) :
    (getStars o1 dir user mx limit n).repos = (getStars o2 dir user mx limit n).repos ∧
    (getStars o1 dir user mx limit n).reponum = (getStars o2 dir user mx limit n).reponum ∧
    (getStars o1 dir user mx limit n).fatalErr = (getStars o2 dir user mx limit n).fatalErr ∧
    (getStars o1 dir user mx limit n).events.map scrubWiki =
      (getStars o2 dir user mx limit n).events.map scrubWiki := by
  cases hso : o1.starred user with
  | httpErr e => simp [getStars, hso, hs ▸ hso, scrubWiki]
  | readErr e => simp [getStars, hso, hs ▸ hso, scrubWiki]
  | badJson raw => simp [getStars, hso, hs ▸ hso, scrubWiki]
  | body j =>
    cases hj : unmarshalStars j with
    | error e => simp [getStars, hso, hs ▸ hso, hj, scrubWiki]
    | ok fullNames =>
      obtain ⟨_, _, i3, i4, i5⟩ := cloneReposGo_wiki_indep o1 o2 hm limit dir
        fullNames fullNames n
      simp only [getStars, hso, hs ▸ hso, hj, cloneRepos, List.map_cons, scrubWiki]
      exact ⟨trivial, i3, i4, by rw [i5]⟩

theorem userStep_wiki_indep (o1 o2 : Oracle) (hg : o1.ghOutput = o2.ghOutput)
    (hs : o1.starred = o2.starred) (hm : o1.mainCloneErr = o2.mainCloneErr)
    (f : Flags) (limit : List String) (user : String) (n : Nat) :
    (userStep o1 f limit user n).reponum = (userStep o2 f limit user n).reponum ∧
    (userStep o1 f limit user n).fatalErr = (userStep o2 f limit user n).fatalErr ∧
    (userStep o1 f limit user n).events.map scrubWiki =
      (userStep o2 f limit user n).events.map scrubWiki := by
  obtain ⟨g1, g2, g3, g4⟩ := getRepos_wiki_indep o1 o2 hg hm f.output (trimSpace user)
    f.maxrepo limit n
  cases hso : f.starsonly with
  | true =>
    obtain ⟨s1, s2, s3, s4⟩ := getStars_wiki_indep o1 o2 hs hm f.output (trimSpace user)
      f.maxrepo limit n
    simp [userStep, hso, s2, s3, s4]
  | false =>
    cases hf : (getRepos o1 f.output (trimSpace user) f.maxrepo limit n).fatalErr with
    | some e =>
      have hf2 : (getRepos o2 f.output (trimSpace user) f.maxrepo limit n).fatalErr = some e := by
        rw [← g3]; exact hf
      simp [userStep, hso, hf, hf2, g2, g4]
    | none =>
      have hf2 : (getRepos o2 f.output (trimSpace user) f.maxrepo limit n).fatalErr = none := by
        rw [← g3]; exact hf
      cases hst : f.stars with
      | false => simp [userStep, hso, hst, hf, hf2, g2, g4]
      | true =>
        obtain ⟨s1, s2, s3, s4⟩ := getStars_wiki_indep o1 o2 hs hm f.output (trimSpace user)
          f.maxrepo limit ((getRepos o1 f.output (trimSpace user) f.maxrepo limit n).reponum)
        rw [g2] at s2 s3 s4
        simp [userStep, hso, hst, hf, hf2, g2, s2, s3, s4, g4]

theorem mainLoop_wiki_indep (o1 o2 : Oracle) (hg : o1.ghOutput = o2.ghOutput)
    (hs : o1.starred = o2.starred) (hm : o1.mainCloneErr = o2.mainCloneErr)
    (f : Flags) (limit : List String) (users : List String) (n : Nat) :
    (mainLoop o1 f limit users n).reponum = (mainLoop o2 f limit users n).reponum ∧
    (mainLoop o1 f limit users n).fatalErr = (mainLoop o2 f limit users n).fatalErr ∧
    (mainLoop o1 f limit users n).events.map scrubWiki =
      (mainLoop o2 f limit users n).events.map scrubWiki := by
  induction users generalizing n with
  | nil => simp [mainLoop]
  | cons user rest ih =>
    obtain ⟨u1, u2, u3⟩ := userStep_wiki_indep o1 o2 hg hs hm f limit user n
    cases hf : (userStep o1 f limit user n).fatalErr with
    | some e =>
      have hf2 : (userStep o2 f limit user n).fatalErr = some e := by rw [← u2]; exact hf
      simp [mainLoop, hf, hf2, u1, u3]
    | none =>
      have hf2 : (userStep o2 f limit user n).fatalErr = none := by rw [← u2]; exact hf
      obtain ⟨r1, r2, r3⟩ := ih ((userStep o1 f limit user n).reponum)
      rw [u1] at r1 r2 r3
      simp [mainLoop, hf, hf2, u1, u3, r1, r2, r3]

theorem cloneReposGo_no_discovery (o : Oracle) (limit : List String) (dir : String)
    (iter v : List String) (n : Nat) :
    ∀ ev ∈ (cloneReposGo o limit dir iter v n).events,
      isGhList ev = false ∧ isHttpGet ev = false := by
  induction iter generalizing v n with
  | nil => simp [cloneReposGo_nil]
  | cons repo iter ih =>
    cases h : included repo limit with
    | false =>
      rw [cloneReposGo_skip o limit dir repo iter v n h]
      exact ih v n
    | true =>
      cases he : o.mainCloneErr repo with
      | some e =>
        rw [cloneReposGo_fatal o limit dir repo e iter v n h he]
        simp [isGhList, isHttpGet]
      | none =>
        rw [cloneReposGo_ok o limit dir repo iter v n h he]
        intro ev hev
        simp only [List.mem_cons] at hev
        rcases hev with h1 | h1 | h1 | h1
        · simp [h1, isGhList, isHttpGet]
        · simp [h1, isGhList, isHttpGet]
        · simp [h1, isGhList, isHttpGet]
        · exact ih (v ++ [repo]) (n + 1) ev h1

theorem getRepos_events (o : Oracle) (dir user mx : String) (limit : List String)
    (n : Nat) :
    ∃ t, (getRepos o dir user mx limit n).events = Event.ghList user mx :: t ∧
      ∀ ev ∈ t, isGhList ev = false ∧ isHttpGet ev = false := by
  cases hg : o.ghOutput user with
  | error e => exact ⟨[Event.fatal e], by simp [getRepos, hg, isGhList, isHttpGet]⟩
  | ok out =>
    refine ⟨(cloneRepos o (parseGhOutput out) limit dir n).events, ?_, ?_⟩
    · simp [getRepos, hg]
    · exact cloneReposGo_no_discovery o limit dir (parseGhOutput out) (parseGhOutput out) n

theorem getStars_events (o : Oracle) (dir user mx : String) (limit : List String)
    (n : Nat) :
    ∃ t, (getStars o dir user mx limit n).events = Event.httpGet user mx :: t ∧
      ∀ ev ∈ t, isGhList ev = false ∧ isHttpGet ev = false := by
  cases hs : o.starred user with
  | httpErr e =>
    exact ⟨[Event.logMsg (starErrMsg user (StarResp.httpErr e))],
      by simp [getStars, hs], by simp [isGhList, isHttpGet]⟩
  | readErr e =>
    exact ⟨[Event.logMsg (starErrMsg user (StarResp.readErr e))],
      by simp [getStars, hs], by simp [isGhList, isHttpGet]⟩
  | badJson raw =>
    exact ⟨[Event.logMsg (starErrMsg user (StarResp.badJson raw))],
      by simp [getStars, hs], by simp [isGhList, isHttpGet]⟩
  | body j =>
    cases hj : unmarshalStars j with
    | error e =>
      exact ⟨[Event.logMsg (starErrMsg user (StarResp.body j))],
        by simp [getStars, hs, hj], by simp [isGhList, isHttpGet]⟩
    | ok fullNames =>
      refine ⟨(cloneRepos o fullNames limit dir n).events, ?_, ?_⟩
      · simp [getStars, hs, hj]
      · exact cloneReposGo_no_discovery o limit dir fullNames fullNames n

theorem userStep_no_ghList (o : Oracle) (f : Flags) (limit : List String)
    (user : String) (n : Nat) (hso : f.starsonly = true) :
    ∀ ev ∈ (userStep o f limit user n).events, isGhList ev = false := by
  obtain ⟨t, ht, htall⟩ := getStars_events o f.output (trimSpace user) f.maxrepo limit n
  intro ev hev
  simp [userStep, hso, ht] at hev
  rcases hev with h1 | h1
  · simp [h1, isGhList]
  · exact (htall ev h1).1

theorem userStep_no_httpGet (o : Oracle) (f : Flags) (limit : List String)
    (user : String) (n : Nat) (hst : f.stars = false) (hso : f.starsonly = false) :
    ∀ ev ∈ (userStep o f limit user n).events, isHttpGet ev = false := by
  obtain ⟨t, ht, htall⟩ := getRepos_events o f.output (trimSpace user) f.maxrepo limit n
  intro ev hev
  cases hf : (getRepos o f.output (trimSpace user) f.maxrepo limit n).fatalErr with
  | some e =>
    simp only [userStep, hso, hst, hf, Bool.not_false, if_pos] at hev
    simp only [ht, List.mem_cons] at hev
    rcases hev with h1 | h1
    · simp [h1, isHttpGet]
    · exact (htall ev h1).2
  | none =>
    simp only [userStep, hso, hst, hf, Bool.not_false, if_pos, Bool.or_false,
      Bool.false_or] at hev
    simp only [if_neg (by simp : ¬ (false = true))] at hev
    simp only [ht, List.mem_cons] at hev
    rcases hev with h1 | h1
    · simp [h1, isHttpGet]
    · exact (htall ev h1).2

theorem mainLoop_no_ghList (o : Oracle) (f : Flags) (limit : List String)
    (users : List String) (n : Nat) (hso : f.starsonly = true) :
    ∀ ev ∈ (mainLoop o f limit users n).events, isGhList ev = false := by
  induction users generalizing n with
  | nil => simp [mainLoop]
  | cons user rest ih =>
    intro ev hev
    cases hf : (userStep o f limit user n).fatalErr with
    | some e =>
      simp only [mainLoop, hf] at hev
      exact userStep_no_ghList o f limit user n hso ev hev
    | none =>
      simp only [mainLoop, hf, List.mem_append] at hev
      rcases hev with h1 | h1
      · exact userStep_no_ghList o f limit user n hso ev h1
      · exact ih _ ev h1

theorem mainLoop_no_httpGet (o : Oracle) (f : Flags) (limit : List String)
    (users : List String) (n : Nat) (hst : f.stars = false) (hso : f.starsonly = false) :
    ∀ ev ∈ (mainLoop o f limit users n).events, isHttpGet ev = false := by
  induction users generalizing n with
  | nil => simp [mainLoop]
  | cons user rest ih =>
    intro ev hev
    cases hf : (userStep o f limit user n).fatalErr with
    | some e =>
      simp only [mainLoop, hf] at hev
      exact userStep_no_httpGet o f limit user n hst hso ev hev
    | none =>
      simp only [mainLoop, hf, List.mem_append] at hev
      rcases hev with h1 | h1
      · exact userStep_no_httpGet o f limit user n hst hso ev h1
      · exact ih _ ev h1

theorem mainLoop_nonfatal_decomp (o : Oracle) (f : Flags) (limit : List String)
    (user : String) (rest : List String) (n : Nat)
    (h : (mainLoop o f limit (user :: rest) n).fatalErr = none) :
    (userStep o f limit user n).fatalErr = none ∧
    (mainLoop o f limit (user :: rest) n).events =
      (userStep o f limit user n).events ++
        (mainLoop o f limit rest ((userStep o f limit user n).reponum)).events ∧
    (mainLoop o f limit rest ((userStep o f limit user n).reponum)).fatalErr = none := by
  cases hf : (userStep o f limit user n).fatalErr with
  | some e => rw [show (mainLoop o f limit (user :: rest) n).fatalErr = some e by
      simp [mainLoop, hf]] at h; cases h
  | none => exact ⟨rfl, by simp [mainLoop, hf], by simp [mainLoop, hf] at h; exact h⟩

theorem userStep_ghList_mem (o : Oracle) (f : Flags) (limit : List String)
    (user : String) (n : Nat) (hso : f.starsonly = false) :
    Event.ghList (trimSpace user) f.maxrepo ∈ (userStep o f limit user n).events := by
  obtain ⟨t, ht, _⟩ := getRepos_events o f.output (trimSpace user) f.maxrepo limit n
  cases hf : (getRepos o f.output (trimSpace user) f.maxrepo limit n).fatalErr with
  | some e => simp [userStep, hso, hf, ht]
  | none =>
    cases hst : f.stars with
    | false => simp [userStep, hso, hst, hf, ht]
    | true => simp [userStep, hso, hst, hf, ht]

theorem userStep_httpGet_mem (o : Oracle) (f : Flags) (limit : List String)
    (user : String) (n : Nat) (h : (f.stars || f.starsonly) = true)
    (hnf : (userStep o f limit user n).fatalErr = none) :
    Event.httpGet (trimSpace user) f.maxrepo ∈ (userStep o f limit user n).events := by
  cases hso : f.starsonly with
  | true =>
    obtain ⟨t, ht, _⟩ := getStars_events o f.output (trimSpace user) f.maxrepo limit n
    simp [userStep, hso, ht]
  | false =>
    have hst : f.stars = true := by
      rw [hso, Bool.or_false] at h
      exact h
    cases hf : (getRepos o f.output (trimSpace user) f.maxrepo limit n).fatalErr with
    | some e =>
      exfalso
      rw [show (userStep o f limit user n).fatalErr = some e by
        simp [userStep, hso, hf]] at hnf
      cases hnf
    | none =>
      obtain ⟨t, ht, _⟩ := getStars_events o f.output (trimSpace user) f.maxrepo limit
        ((getRepos o f.output (trimSpace user) f.maxrepo limit n).reponum)
      simp [userStep, hso, hst, hf, ht]

theorem mainLoop_ghList_mem (o : Oracle) (f : Flags) (limit : List String)
    (users : List String) (n : Nat) (user : String) (hso : f.starsonly = false)
    (hu : user ∈ users) (hnf : (mainLoop o f limit users n).fatalErr = none) :
    Event.ghList (trimSpace user) f.maxrepo ∈ (mainLoop o f limit users n).events := by
  induction users generalizing n with
  | nil => cases hu
  | cons u1 rest ih =>
    obtain ⟨h1, h2, h3⟩ := mainLoop_nonfatal_decomp o f limit u1 rest n hnf
    rw [h2]
    rcases List.mem_cons.mp hu with he | he
    · subst he
      exact List.mem_append_left _ (userStep_ghList_mem o f limit user n hso)
    · exact List.mem_append_right _ (ih _ he h3)

theorem mainLoop_httpGet_mem (o : Oracle) (f : Flags) (limit : List String)
    (users : List String) (n : Nat) (user : String)
    (h : (f.stars || f.starsonly) = true)
    (hu : user ∈ users) (hnf : (mainLoop o f limit users n).fatalErr = none) :
    Event.httpGet (trimSpace user) f.maxrepo ∈ (mainLoop o f limit users n).events := by
  induction users generalizing n with
  | nil => cases hu
  | cons u1 rest ih =>
    obtain ⟨h1, h2, h3⟩ := mainLoop_nonfatal_decomp o f limit u1 rest n hnf
    rw [h2]
    rcases List.mem_cons.mp hu with he | he
    · subst he
      exact List.mem_append_left _ (userStep_httpGet_mem o f limit user n h h1)
    · exact List.mem_append_right _ (ih _ he h3)

/-!
## The specification claims
-/

/-- C1 (counterexample): the claim that entries lacking a `full_name` field
are skipped is false on the code: for the starred-discovery body
`[{"full_name":"x/y"},{"other":"z"},{"full_name":"p/q"}]` the parsed
repository list of `getStars` is not `["x/y", "p/q"]` (the parse loop appends
`jsonData[i].FullName` for every element, so the element without `full_name`
contributes the zero value `""`). -/
theorem getStars_missing_full_name_not_skipped :
    (getStars oracleStarsT "repos" "alice" "1000" [] 0).repos ≠ ["x/y", "p/q"] := by
  decide

/-- C1 (amended): entries lacking a `full_name` field do not cause an error,
but they are not skipped either: they contribute an empty-string identifier.
For the body `[{"full_name":"x/y"},{"other":"z"},{"full_name":"p/q"}]` the
unmarshal succeeds and the parsed repository list of `getStars` is exactly
`["x/y", "", "p/q"]`, with no fatal error. -/
theorem getStars_missing_full_name_empty_entry :
    unmarshalStars starsBodyT = Except.ok ["x/y", "", "p/q"] ∧
    (getStars oracleStarsT "repos" "alice" "1000" [] 0).repos = ["x/y", "", "p/q"] ∧
    (getStars oracleStarsT "repos" "alice" "1000" [] 0).fatalErr = none :=
  ⟨rfl, rfl, rfl⟩

/-- C2 (code bug): applied to repos `["a/b", "c/d"]` with allow-list
`["a/b"]`, `cloneRepos` performs exactly one main clone (for `a/b`), one
wiki-clone attempt, and prints progress only for `a/b` — but its returned
`cloned` list is empty, not `["a/b"]`: the loop body appends the cloned
repository to the local `repos` variable (src/main.go line 146) instead of
to the named return value `cloned`, which is never assigned. -/
theorem cloneRepos_returns_empty_cloned :
    (cloneRepos oracleOkT ["a/b", "c/d"] ["a/b"] "repos" 0).events =
      [Event.progress 1 "a/b", Event.mainClone "a/b", Event.wikiClone "a/b" true] ∧
    (cloneRepos oracleOkT ["a/b", "c/d"] ["a/b"] "repos" 0).cloned = [] ∧
    (cloneRepos oracleOkT ["a/b", "c/d"] ["a/b"] "repos" 0).reposVar =
      ["a/b", "c/d", "a/b"] ∧
    (cloneRepos oracleOkT ["a/b", "c/d"] ["a/b"] "repos" 0).fatalErr = none := by
  decide

/-- C3: `included r []` is true for every `r`; for a non-empty allow-list,
`included r list` is true iff `r` exactly equals some entry of `list` after
trimming whitespace from that entry (`r` itself is not trimmed, and there is
no substring or glob matching). -/
theorem included_allowlist_spec (r : String) (list : List String) :
    included r [] = true ∧
    (list ≠ [] → (included r list = true ↔ ∃ e ∈ list, trimSpace e = r)) := by
  refine ⟨rfl, ?_⟩
  intro hne
  have h1 : (list.length == 0) = false := by
    cases list with
    | nil => exact absurd rfl hne
    | cons a l => rfl
  rw [included, h1, Bool.false_or]
  exact inSlise_iff r list

/-- Witness for C3 at `r = "a/b"`, `list = [" a/b "]`. -/
theorem included_allowlist_spec_witness :
    included "a/b" [] = true ∧
    (included "a/b" [" a/b "] = true ↔ ∃ e ∈ [" a/b "], trimSpace e = "a/b") :=
  ⟨(included_allowlist_spec "a/b" [" a/b "]).1,
   (included_allowlist_spec "a/b" [" a/b "]).2 (by decide)⟩

/-- C4: `getRepos` output parsing keeps exactly the first tab-delimited field
of each non-empty line and ignores empty lines: the tool output
`"a/b\tpublic\nc/d\tprivate\n\n"` parses to exactly `["a/b", "c/d"]`, and
`"x\n\ny\t\tz\n"` (with an interior empty line) parses to `["x", "y"]`. -/
theorem parseGhOutput_tab_fields :
    parseGhOutput "a/b\tpublic\nc/d\tprivate\n\n" = ["a/b", "c/d"] ∧
    parseGhOutput "x\n\ny\t\tz\n" = ["x", "y"] := by decide

/-- C5: fatal errors abort the whole process at once.  If the owned-discovery
listing invocation errors, the run for `user :: rest` ends immediately with
only the listing attempt and the fatal event — no clones, no further accounts
— and a fatal (non-zero) exit; if the main clone of an included repository
errors, `cloneRepos` stops at that repository with a fatal exit and the rest
of the iteration list untouched; and any fatal user step prevents all
remaining accounts from being processed. -/
theorem fatal_errors_abort_run (o : Oracle) (f : Flags) (limit : List String)
    (user : String) (rest : List String) (repo : String) (iter v : List String)
    (dir e1 e2 e3 : String) (n : Nat) :
    (f.starsonly = false → o.ghOutput (trimSpace user) = Except.error e1 →
      mainLoop o f limit (user :: rest) n =
        ⟨[Event.ghList (trimSpace user) f.maxrepo, Event.fatal e1], n, some e1⟩) ∧
    (included repo limit = true → o.mainCloneErr repo = some e2 →
      cloneReposGo o limit dir (repo :: iter) v n =
        ⟨[], v ++ [repo],
         [Event.progress (n + 1) repo, Event.mainClone repo, Event.fatal e2],
         n + 1, some e2⟩) ∧
    ((userStep o f limit user n).fatalErr = some e3 →
      mainLoop o f limit (user :: rest) n =
        ⟨(userStep o f limit user n).events, (userStep o f limit user n).reponum,
         some e3⟩) := by
  refine ⟨?_, ?_, ?_⟩
  · intro hso hg
    simp [mainLoop, userStep, hso, getRepos, hg]
  · intro h he
    exact cloneReposGo_fatal o limit dir repo e2 iter v n h he
  · intro hf
    simp [mainLoop, hf]

/-- Witness for C5 on `oracleFailT` (failing `gh` listing and main clones). -/
theorem fatal_errors_abort_run_witness :
    (mainLoop oracleFailT flagsBothT [] ["alice"] 0 =
      ⟨[Event.ghList (trimSpace "alice") flagsBothT.maxrepo,
        Event.fatal "gh: not logged in"], 0, some "gh: not logged in"⟩) ∧
    (cloneReposGo oracleFailT [] "repos" ["a/b"] [] 0 =
      ⟨[], [] ++ ["a/b"],
       [Event.progress 1 "a/b", Event.mainClone "a/b",
        Event.fatal "git: repository not found"], 1, some "git: repository not found"⟩) ∧
    (mainLoop oracleFailT flagsBothT [] ["alice"] 0 =
      ⟨(userStep oracleFailT flagsBothT [] "alice" 0).events,
       (userStep oracleFailT flagsBothT [] "alice" 0).reponum,
       some "gh: not logged in"⟩) := by
  have h := fatal_errors_abort_run oracleFailT flagsBothT [] "alice" [] "a/b" [] []
    "repos" "gh: not logged in" "git: repository not found" "gh: not logged in" 0
  exact ⟨h.1 rfl rfl, h.2.1 (by decide) rfl, h.2.2 (by decide)⟩

/-- C6: a wiki-clone failure is swallowed silently.  Two runs whose oracles
differ only in wiki-clone outcomes (`w1` versus `w2`) have the same returned
`cloned` list, the same counter, the same fatal status (hence the same exit
code), and identical event traces up to the wiki-clone success bits — both in
a single `cloneRepos` call (so subsequent repositories in the same list are
still processed) and over a whole `mainRun`. -/
theorem wiki_clone_failure_swallowed (o : Oracle) (w1 w2 : String → Bool)
    (f : Flags) (repos limit : List String) (dir : String) (n : Nat) :
    ((cloneRepos ⟨o.ghOutput, o.starred, o.mainCloneErr, w1⟩ repos limit dir n).cloned =
      (cloneRepos ⟨o.ghOutput, o.starred, o.mainCloneErr, w2⟩ repos limit dir n).cloned) ∧
    ((cloneRepos ⟨o.ghOutput, o.starred, o.mainCloneErr, w1⟩ repos limit dir n).reponum =
      (cloneRepos ⟨o.ghOutput, o.starred, o.mainCloneErr, w2⟩ repos limit dir n).reponum) ∧
    ((cloneRepos ⟨o.ghOutput, o.starred, o.mainCloneErr, w1⟩ repos limit dir n).fatalErr =
      (cloneRepos ⟨o.ghOutput, o.starred, o.mainCloneErr, w2⟩ repos limit dir n).fatalErr) ∧
    ((cloneRepos ⟨o.ghOutput, o.starred, o.mainCloneErr, w1⟩ repos limit dir n).events.map
        scrubWiki =
      (cloneRepos ⟨o.ghOutput, o.starred, o.mainCloneErr, w2⟩ repos limit dir n).events.map
        scrubWiki) ∧
    ((mainRun ⟨o.ghOutput, o.starred, o.mainCloneErr, w1⟩ f).reponum =
      (mainRun ⟨o.ghOutput, o.starred, o.mainCloneErr, w2⟩ f).reponum) ∧
    ((mainRun ⟨o.ghOutput, o.starred, o.mainCloneErr, w1⟩ f).fatalErr =
      (mainRun ⟨o.ghOutput, o.starred, o.mainCloneErr, w2⟩ f).fatalErr) ∧
    ((mainRun ⟨o.ghOutput, o.starred, o.mainCloneErr, w1⟩ f).events.map scrubWiki =
      (mainRun ⟨o.ghOutput, o.starred, o.mainCloneErr, w2⟩ f).events.map scrubWiki) := by
  obtain ⟨c1, c2, c3, c4, c5⟩ := cloneReposGo_wiki_indep
    ⟨o.ghOutput, o.starred, o.mainCloneErr, w1⟩ ⟨o.ghOutput, o.starred, o.mainCloneErr, w2⟩
    rfl limit dir repos repos n
  obtain ⟨m1, m2, m3⟩ := mainLoop_wiki_indep
    ⟨o.ghOutput, o.starred, o.mainCloneErr, w1⟩ ⟨o.ghOutput, o.starred, o.mainCloneErr, w2⟩
    rfl rfl rfl f (parseLimit f.limitslist) (parseUsers f.userslist) 0
  exact ⟨c1, c3, c4, c5, m1, m2, m3⟩

/-- C7: when the starred-discovery response for an account is an HTTP error,
a body-read error, or a JSON parse/unmarshal error, `getStars` logs one
message (whose text, per `starErrMsg`, carries the account or the underlying
error), returns the empty repository list, performs no clone events and no
fatal exit; and in starred-only mode the run continues with the remaining
accounts, with the counter unchanged. -/
theorem getStars_errors_nonfatal (o : Oracle) (f : Flags)
    (dir user mx : String) (limit rest : List String) (n : Nat) :
    (starRespFails (o.starred user) = true →
      getStars o dir user mx limit n =
        ⟨[], [Event.httpGet user mx, Event.logMsg (starErrMsg user (o.starred user))],
         n, none⟩) ∧
    (f.starsonly = true → starRespFails (o.starred (trimSpace user)) = true →
      mainLoop o f limit (user :: rest) n =
        ⟨Event.httpGet (trimSpace user) f.maxrepo ::
           Event.logMsg (starErrMsg (trimSpace user) (o.starred (trimSpace user))) ::
           (mainLoop o f limit rest n).events,
         (mainLoop o f limit rest n).reponum, (mainLoop o f limit rest n).fatalErr⟩) := by
  have key : ∀ u, starRespFails (o.starred u) = true →
      getStars o dir u mx limit n =
        ⟨[], [Event.httpGet u mx, Event.logMsg (starErrMsg u (o.starred u))], n, none⟩ := by
    intro u hu
    cases hs : o.starred u with
    | httpErr e => simp [getStars, hs, starErrMsg]
    | readErr e => simp [getStars, hs, starErrMsg]
    | badJson raw => simp [getStars, hs, starErrMsg]
    | body j =>
      rw [hs] at hu
      cases hj : unmarshalStars j with
      | error e => simp [getStars, hs, hj, starErrMsg]
      | ok fullNames => rw [starRespFails, hj] at hu; simp [exceptOk] at hu
  refine ⟨key user, ?_⟩
  intro hso hu
  have key2 : getStars o f.output (trimSpace user) f.maxrepo limit n =
      ⟨[], [Event.httpGet (trimSpace user) f.maxrepo,
            Event.logMsg (starErrMsg (trimSpace user) (o.starred (trimSpace user)))],
       n, none⟩ := by
    cases hs : o.starred (trimSpace user) with
    | httpErr e => simp [getStars, hs, starErrMsg]
    | readErr e => simp [getStars, hs, starErrMsg]
    | badJson raw => simp [getStars, hs, starErrMsg]
    | body j =>
      rw [hs] at hu
      cases hj : unmarshalStars j with
      | error e => simp [getStars, hs, hj, starErrMsg]
      | ok fullNames => rw [starRespFails, hj] at hu; simp [exceptOk] at hu
  simp [mainLoop, userStep, hso, key2]

/-- Witness for C7 on `oracleFailT`, whose starred response is a body-read
error. -/
theorem getStars_errors_nonfatal_witness :
    (getStars oracleFailT "repos" "alice" "1000" [] 0 =
      ⟨[], [Event.httpGet "alice" "1000",
            Event.logMsg (starErrMsg "alice" (oracleFailT.starred "alice"))], 0, none⟩) ∧
    (mainLoop oracleFailT flagsStarsOnlyT [] ["alice"] 0 =
      ⟨Event.httpGet (trimSpace "alice") flagsStarsOnlyT.maxrepo ::
         Event.logMsg (starErrMsg (trimSpace "alice")
           (oracleFailT.starred (trimSpace "alice"))) ::
         (mainLoop oracleFailT flagsStarsOnlyT [] [] 0).events,
       (mainLoop oracleFailT flagsStarsOnlyT [] [] 0).reponum,
       (mainLoop oracleFailT flagsStarsOnlyT [] [] 0).fatalErr⟩) := by
  have h := getStars_errors_nonfatal oracleFailT flagsStarsOnlyT "repos" "alice"
    "1000" [] [] 0
  exact ⟨h.1 rfl, h.2 rfl rfl⟩

/-- C8: with `starsonly` set, no owned-discovery invocation ever happens; and
in any run that completes without a fatal error, each account of the parsed
account list has an owned-discovery invocation iff `starsonly` is false and a
starred-discovery invocation iff `stars || starsonly`. -/
theorem discovery_flag_selection (o : Oracle) (f : Flags) :
    (f.starsonly = true → ∀ u m, Event.ghList u m ∉ (mainRun o f).events) ∧
    ((mainRun o f).fatalErr = none → ∀ user ∈ parseUsers f.userslist,
      (Event.ghList (trimSpace user) f.maxrepo ∈ (mainRun o f).events ↔
        f.starsonly = false) ∧
      (Event.httpGet (trimSpace user) f.maxrepo ∈ (mainRun o f).events ↔
        (f.stars || f.starsonly) = true)) := by
  constructor
  · intro hso u m hmem
    have h1 := mainLoop_no_ghList o f (parseLimit f.limitslist) (parseUsers f.userslist)
      0 hso (Event.ghList u m) hmem
    simp [isGhList] at h1
  · intro hnf user hu
    refine ⟨⟨?_, ?_⟩, ?_, ?_⟩
    · intro hmem
      cases hso : f.starsonly with
      | false => rfl
      | true =>
        exfalso
        have h1 := mainLoop_no_ghList o f (parseLimit f.limitslist)
          (parseUsers f.userslist) 0 hso _ hmem
        simp [isGhList] at h1
    · intro hso
      exact mainLoop_ghList_mem o f (parseLimit f.limitslist) (parseUsers f.userslist)
        0 user hso hu hnf
    · intro hmem
      cases hq : (f.stars || f.starsonly) with
      | true => rfl
      | false =>
        exfalso
        simp only [Bool.or_eq_false_iff] at hq
        have h1 := mainLoop_no_httpGet o f (parseLimit f.limitslist)
          (parseUsers f.userslist) 0 hq.1 hq.2 _ hmem
        simp [isHttpGet] at h1
    · intro h
      exact mainLoop_httpGet_mem o f (parseLimit f.limitslist) (parseUsers f.userslist)
        0 user h hu hnf

/-- Witness for C8: a starred-only run on `oracleOkT` performs no `gh`
listing for `alice`; a non-fatal owned+starred run performs both discovery
calls for `alice`. -/
theorem discovery_flag_selection_witness :
    (Event.ghList "alice" "1000" ∉ (mainRun oracleOkT flagsStarsOnlyT).events) ∧
    (Event.ghList (trimSpace "alice") flagsBothT.maxrepo ∈
        (mainRun oracleOkT flagsBothT).events ↔ flagsBothT.starsonly = false) ∧
    (Event.httpGet (trimSpace "alice") flagsBothT.maxrepo ∈
        (mainRun oracleOkT flagsBothT).events ↔
      (flagsBothT.stars || flagsBothT.starsonly) = true) := by
  have h1 := (discovery_flag_selection oracleOkT flagsStarsOnlyT).1 rfl "alice" "1000"
  have h2 := (discovery_flag_selection oracleOkT flagsBothT).2 (by decide) "alice"
    (by decide)
  exact ⟨h1, h2.1, h2.2⟩

/-- C9: the progress counter is process-wide: over a whole run — all accounts
and both discovery mechanisms — the printed counter values are exactly
`1, 2, ..., reponum`, a single consecutive increasing tally that never
restarts, and the final counter equals the number of progress lines
printed. -/
theorem progress_counter_consecutive (o : Oracle) (f : Flags) :
    progressNums (mainRun o f).events = List.range' 1 ((mainRun o f).reponum) := by
  obtain ⟨k, h1, h2⟩ := mainLoop_progress o f (parseLimit f.limitslist)
    (parseUsers f.userslist) 0
  show progressNums (mainLoop o f (parseLimit f.limitslist) (parseUsers f.userslist) 0).events =
    List.range' 1 ((mainLoop o f (parseLimit f.limitslist) (parseUsers f.userslist) 0).reponum)
  rw [h1, h2]
  norm_num

/-- C10: although the loop body appends the current repository back onto the
`repos` slice, the iteration range is fixed at loop entry, so when every main
clone succeeds the main-clone invocations are exactly the filter-accepted
elements of the original input list, in order and each exactly once — while
the local `repos` variable has grown by exactly those elements. -/
theorem cloneRepos_iterates_original_list (o : Oracle)
    (repos limit : List String) (dir : String) (n : Nat)
    (hok : ∀ r, o.mainCloneErr r = none) :
    mainClones (cloneRepos o repos limit dir n).events =
      repos.filter (fun r => included r limit) ∧
    (cloneRepos o repos limit dir n).reposVar =
      repos ++ repos.filter (fun r => included r limit) ∧
    (cloneRepos o repos limit dir n).fatalErr = none :=
  cloneReposGo_mainClones o limit dir hok repos repos n

/-- Witness for C10 at repos `["a/b", "c/d"]`, allow-list `["a/b"]`. -/
theorem cloneRepos_iterates_original_list_witness :
    mainClones (cloneRepos oracleOkT ["a/b", "c/d"] ["a/b"] "repos" 0).events =
      (["a/b", "c/d"].filter (fun r => included r ["a/b"])) ∧
    (cloneRepos oracleOkT ["a/b", "c/d"] ["a/b"] "repos" 0).reposVar =
      ["a/b", "c/d"] ++ (["a/b", "c/d"].filter (fun r => included r ["a/b"])) ∧
    (cloneRepos oracleOkT ["a/b", "c/d"] ["a/b"] "repos" 0).fatalErr = none :=
  cloneRepos_iterates_original_list oracleOkT ["a/b", "c/d"] ["a/b"] "repos" 0
    (fun _ => rfl)

end GithubBackup
